import Mathlib

/-!
Shallow embedding of the gacha economy engine of
`src/exts/gacha_cmds.py` (the `GachaCommands` extension): data model,
the four public operations (`gacha_draw`, `gacha_profile`,
`gacha_give_currency`, `gacha_user_view_item`), and a small-step
interleaving model for concurrent draws.

Discord/ORM plumbing (embeds, pagination, autocomplete) carries no
state relevant to the spec and is elided; every check, read and write
the handlers perform on the persistent rows is mirrored here in the
order the Python code performs it.
-/

namespace Gacha

/-- A `GachaPlayer` row: `{id, guild_id, user_id, currency_amount}`. -/
structure GachaPlayerRow where
  id : Nat
  guild_id : Nat
  user_id : Nat
  currency_amount : Int
deriving DecidableEq, Repr

/-- A `GachaItem` row: `{id, guild_id, name, amount}`; `amount = -1`
means unlimited stock. -/
structure GachaItemRow where
  id : Nat
  guild_id : Nat
  name : String
  amount : Int
deriving DecidableEq, Repr

/-- An `ItemToPlayer` ownership row linking an item to a player. -/
structure ItemToPlayerRow where
  item_id : Nat
  player_id : Nat
deriving DecidableEq, Repr

/-- The persistent store: all rows of the three tables, plus the next
fresh id handed out for newly created player rows. -/
structure Store where
  players : List GachaPlayerRow
  items : List GachaItemRow
  itemToPlayer : List ItemToPlayerRow
  nextPlayerId : Nat
deriving DecidableEq, Repr

/-- The slice of the guild config the handlers consult:
`config.player_role` (unset = `none`), `config.gacha.enabled`, and
`config.gacha.currency_cost`. -/
structure GachaConfig where
  player_role : Option Nat
  enabled : Bool
  currency_cost : Int
deriving DecidableEq, Repr

/-- The slice of the command context the handlers consult: guild id,
author id, whether the author holds the configured player role, and
(for give-currency) the recipient id and whether the recipient holds
the role. -/
structure CmdCtx where
  guild_id : Nat
  author_id : Nat
  author_has_role : Bool
  recipient_id : Nat
  recipient_has_role : Bool
deriving DecidableEq, Repr

/-- Outcome of a command handler: `ok` with the final store, or a
raised check failure / bad argument carrying its message and the store
as the exception leaves it (writes made before the raise are durable;
nothing is rolled back by raising). -/
inductive CmdResult where
  | ok : Store → CmdResult
  | err : String → Store → CmdResult
deriving DecidableEq, Repr

/-- The store a command run leaves behind, successful or not. -/
def storeOf : CmdResult → Store
  | .ok s => s
  | .err _ s => s

/-- `GachaPlayer.get_or_none(guild_id, user_id)`: first player row of
that guild and user. Modelled from the spec: `common.models` is not
under `src/`; per §3 a Player is unique per `(guildId, userId)` and
this is a plain keyed lookup. -/
def lookupPlayer (s : Store) (g u : Nat) : Option GachaPlayerRow :=
  s.players.find? (fun p => p.guild_id == g && p.user_id == u)

/-- `GachaPlayer.prisma().create(data={guild_id, user_id})`: appends a
fresh row. Modelled from the spec: the Prisma model is not under
`src/`; per §3 players are "created lazily" and C10/§4.3 describe the
fresh record as zero-balance, so the schema default for
`currency_amount` is 0. Returns the created row and the new store. -/
def createPlayer (s : Store) (g u : Nat) : GachaPlayerRow × Store :=
  let row : GachaPlayerRow :=
    { id := s.nextPlayerId, guild_id := g, user_id := u, currency_amount := 0 }
  (row, { s with players := s.players ++ [row], nextPlayerId := s.nextPlayerId + 1 })

/-- `GachaPlayer.get_or_create(guild_id, user_id)`: lookup, creating a
fresh zero-balance row when absent. Modelled from the spec (the model
class is not under `src/`): "load or lazily create the Player row". -/
def get_or_create (s : Store) (g u : Nat) : GachaPlayerRow × Store :=
  match lookupPlayer s g u with
  | some p => (p, s)
  | none => createPlayer s g u

/-- `player.save()`: writes the in-memory object's fields back to the
row with the same primary key (a whole-row write, last writer wins).
Modelled from the spec: the ORM base class is not under `src/`. -/
def savePlayer (s : Store) (p : GachaPlayerRow) : Store :=
  { s with players := s.players.map (fun q => if q.id = p.id then p else q) }

/-- The eligible set the draw queries range over: the guild's items
with `amount != 0`, enumerated in ascending `id` order (the handler's
`order={"id": "asc"}`). -/
def eligibleItems (s : Store) (g : Nat) : List GachaItemRow :=
  List.insertionSort (fun a b => a.id ≤ b.id)
    (s.items.filter (fun it => it.guild_id == g && it.amount != 0))

/-- The immutable inputs of one draw call. -/
structure DrawParams where
  cfg : GachaConfig
  ctx : CmdCtx
  k : Nat
deriving DecidableEq, Repr

/-- What a draw has read by the time it reaches its commit batch: the
player row's id, the selected item's id, and the item's `amount` as
read (the in-memory `item.amount` the batch will write back
decremented). -/
structure DrawSnapshot where
  playerId : Nat
  itemId : Nat
  itemAmount : Int
deriving DecidableEq, Repr

/-- Everything `gacha_draw` does before its commit batch, in source
order: config gate, role gate, `get_or_create` (durable lazy creation),
balance check, eligible count, and the skip-`k` selection
(`find_first_or_raise` raises when `k` is out of range). Returns the
snapshot the batch uses, or the raised message, together with the store
as left by this phase. -/
def drawPhase1 (p : DrawParams) (s : Store) : Except String DrawSnapshot × Store :=
  if p.cfg.player_role = none ∨ p.cfg.enabled = false then
    (.error "Gacha is not enabled in this server.", s)
  else if p.ctx.author_has_role = false then
    (.error "You do not have the Player role.", s)
  else
    match get_or_create s p.ctx.guild_id p.ctx.author_id with
    | (player, s1) =>
      if player.currency_amount < p.cfg.currency_cost then
        (.error "You do not have enough currency to draw from the gacha.", s1)
      else if (eligibleItems s1 p.ctx.guild_id).length = 0 then
        (.error "No items to draw.", s1)
      else
        match (eligibleItems s1 p.ctx.guild_id)[p.k]? with
        | none => (.error "NotFoundError", s1)
        | some item => (.ok ⟨player.id, item.id, item.amount⟩, s1)

/-- The draw's commit batch (`bot.db.batch_()`), applied as one atomic
unit, mirroring the three queued queries in order: when the read
`item.amount` was not `-1`, an absolute write of that read value minus
one; a relational decrement of the player's currency by
`currency_cost`; and the creation of one ownership row. -/
def drawCommit (p : DrawParams) (snap : DrawSnapshot) (s : Store) : Store :=
  let s1 : Store :=
    if snap.itemAmount = -1 then s
    else { s with items := s.items.map (fun it =>
      if it.id = snap.itemId then { it with amount := snap.itemAmount - 1 } else it) }
  let s2 : Store := { s1 with players := s1.players.map (fun q =>
    if q.id = snap.playerId then
      { q with currency_amount := q.currency_amount - p.cfg.currency_cost }
    else q) }
  { s2 with itemToPlayer := s2.itemToPlayer ++ [⟨snap.itemId, snap.playerId⟩] }

/-- `/gacha draw`, run without interleaving: phase 1 then, on success,
the commit batch. -/
def gacha_draw (p : DrawParams) (s : Store) : CmdResult :=
  match drawPhase1 p s with
  | (.error m, s1) => .err m s1
  | (.ok snap, s1) => .ok (drawCommit p snap s1)

/-- `/gacha profile`: config gate, then `get_or_none`; when no row
exists, a caller without the player role gets `BadArgument` and a
caller with it triggers a durable `create`; rendering is read-only. -/
def gacha_profile (cfg : GachaConfig) (ctx : CmdCtx) (s : Store) : CmdResult :=
  if cfg.player_role = none ∨ cfg.enabled = false then
    .err "Gacha is not enabled in this server." s
  else
    match lookupPlayer s ctx.guild_id ctx.author_id with
    | some _ => .ok s
    | none =>
      if ctx.author_has_role = false then
        .err "You have no data for gacha." s
      else
        .ok (createPlayer s ctx.guild_id ctx.author_id).2

/-- The part of `/gacha give-currency` after the author's row is in
hand and before the two saves, in source order: the author balance
check, then load-or-lazily-create the recipient's row — the handler's
create call passes `user_id: ctx.author.id`, the author's id, not the
recipient's, and that is mirrored here exactly as written. -/
def giveStage2 (ctx : CmdCtx) (amount : Int) (player : GachaPlayerRow)
    (s1 : Store) :
    Except (String × Store) (GachaPlayerRow × GachaPlayerRow × Store) :=
  if player.currency_amount < amount then
    .error ("You do not have enough currency to give.", s1)
  else
    match lookupPlayer s1 ctx.guild_id ctx.recipient_id with
    | none =>
      if ctx.recipient_has_role = false then
        .error ("The recipient has no data for gacha.", s1)
      else
        match createPlayer s1 ctx.guild_id ctx.author_id with
        | (recipient, s2) => .ok (player, recipient, s2)
    | some recipient => .ok (player, recipient, s1)

/-- Everything `/gacha give-currency` does before its two saves, in
source order: config gate; load-or-lazily-create the author's row (the
role gate applies only on the create path); then `giveStage2`. Returns
the two in-memory row objects and the store as left by this phase. -/
def giveStage1 (cfg : GachaConfig) (ctx : CmdCtx) (amount : Int) (s : Store) :
    Except (String × Store) (GachaPlayerRow × GachaPlayerRow × Store) :=
  if cfg.player_role = none ∨ cfg.enabled = false then
    .error ("Gacha is not enabled in this server.", s)
  else
    match lookupPlayer s ctx.guild_id ctx.author_id with
    | none =>
      if ctx.author_has_role = false then
        .error ("You have no data for gacha.", s)
      else
        match createPlayer s ctx.guild_id ctx.author_id with
        | (player, s1) => giveStage2 ctx amount player s1
    | some player => giveStage2 ctx amount player s

/-- The durable store between the two saves of `/gacha give-currency`:
the recipient object (credited in memory) has been saved, the sender
object has not yet been. `none` when stage 1 raised. -/
def giveMidStore (cfg : GachaConfig) (ctx : CmdCtx) (amount : Int) (s : Store) :
    Option Store :=
  match giveStage1 cfg ctx amount s with
  | .error _ => none
  | .ok (_, recipient, s2) =>
    some (savePlayer s2 { recipient with currency_amount := recipient.currency_amount + amount })

/-- `/gacha give-currency`: stage 1, then the in-memory credit and
debit, then `recipient_player.save()` followed by `player.save()`, two
separate whole-row writes in that order. -/
def gacha_give_currency (cfg : GachaConfig) (ctx : CmdCtx) (amount : Int)
    (s : Store) : CmdResult :=
  match giveStage1 cfg ctx amount s with
  | .error (m, s1) => .err m s1
  | .ok (player, recipient, s2) =>
    let recipient1 := { recipient with currency_amount := recipient.currency_amount + amount }
    let player1 := { player with currency_amount := player.currency_amount - amount }
    .ok (savePlayer (savePlayer s2 recipient1) player1)

/-- The slash-command option layer of `/gacha give-currency`: `amount`
is declared `tansy.Option(min_value=1, max_value=999)`, so Discord
rejects any value outside `[1, 999]` before the handler body runs. -/
def gacha_give_currency_entry (cfg : GachaConfig) (ctx : CmdCtx) (amount : Int)
    (s : Store) : CmdResult :=
  if amount < 1 ∨ 999 < amount then
    .err "Option amount out of range [1, 999]." s
  else
    gacha_give_currency cfg ctx amount s

/-- `/gacha view-item`: a single `find_first` for an item of the guild
with the given name owned (via some `ItemToPlayer` row) by the caller;
`BadArgument` when absent, an embed when present. No writes on either
path. -/
def gacha_user_view_item (ctx : CmdCtx) (name : String) (s : Store) : CmdResult :=
  match s.items.find? (fun it =>
      it.guild_id == ctx.guild_id && it.name == name &&
      s.itemToPlayer.any (fun o =>
        o.item_id == it.id &&
        s.players.any (fun p =>
          p.id == o.player_id && p.guild_id == ctx.guild_id &&
            p.user_id == ctx.author_id))) with
  | none => .err "Item either does not exist or you do not have it." s
  | some _ => .ok s

/-! ## Interleaving model for concurrent draws

Each `await` in the handler is a scheduling point. A draw consists of
two observable transitions against the shared store: its read/validate
phase (`drawPhase1`, whose lazy player creation is durable), and its
commit batch (`drawCommit`, atomic because `batch_` runs as one
transaction). Any interleaving of these per-thread transitions is a
reachable history. -/

/-- Progress of one in-flight draw call. -/
inductive DrawPhase where
  | ready
  | pending (snap : DrawSnapshot)
  | failed (msg : String)
  | succeeded
deriving DecidableEq, Repr

/-- One in-flight draw call: its immutable parameters and progress. -/
structure DrawThread where
  params : DrawParams
  phase : DrawPhase
deriving DecidableEq, Repr

/-- The shared store plus every in-flight draw call. -/
structure DrawSys where
  store : Store
  threads : List DrawThread
deriving DecidableEq, Repr

/-- Thread progress after its read phase returns. -/
def phaseAfterRead : Except String DrawSnapshot → DrawPhase
  | .ok snap => .pending snap
  | .error m => .failed m

/-- One scheduling step: some thread runs its read phase, or some
thread holding a snapshot runs its commit batch. -/
inductive DStep : DrawSys → DrawSys → Prop
  | read (s : Store) (ths : List DrawThread) (i : Nat) (t : DrawThread)
      (hget : ths[i]? = some t) (hph : t.phase = DrawPhase.ready) :
      DStep ⟨s, ths⟩
        ⟨(drawPhase1 t.params s).2,
         ths.set i ⟨t.params, phaseAfterRead (drawPhase1 t.params s).1⟩⟩
  | commit (s : Store) (ths : List DrawThread) (i : Nat) (t : DrawThread)
      (snap : DrawSnapshot)
      (hget : ths[i]? = some t) (hph : t.phase = DrawPhase.pending snap) :
      DStep ⟨s, ths⟩
        ⟨drawCommit t.params snap s, ths.set i ⟨t.params, DrawPhase.succeeded⟩⟩

/-- Reachability in the interleaving model. -/
def DReach : DrawSys → DrawSys → Prop := Relation.ReflTransGen DStep

/-- The read step as a function: what `DStep.read` on thread `i`
produces (identity when `i` is out of range). -/
def dstepRead (i : Nat) (sys : DrawSys) : DrawSys :=
  match sys.threads[i]? with
  | some t =>
    ⟨(drawPhase1 t.params sys.store).2,
     sys.threads.set i ⟨t.params, phaseAfterRead (drawPhase1 t.params sys.store).1⟩⟩
  | none => sys

/-- The commit step as a function: what `DStep.commit` on thread `i`
produces (identity when `i` is out of range or not pending). -/
def dstepCommit (i : Nat) (sys : DrawSys) : DrawSys :=
  match sys.threads[i]? with
  | some t =>
    match t.phase with
    | DrawPhase.pending snap =>
      ⟨drawCommit t.params snap sys.store,
       sys.threads.set i ⟨t.params, DrawPhase.succeeded⟩⟩
    | _ => sys
  | none => sys

/-! ## Invariants -/

/-- Whether a command run raised no exception. -/
def isOk : CmdResult → Bool
  | .ok _ => true
  | .err _ _ => false

/-- Every stored stock value is `-1` (unlimited) or a nonnegative
finite count: finite stock is never stored below 0. -/
def StockInv (s : Store) : Prop := ∀ it ∈ s.items, -1 ≤ it.amount

/-- Every stored player balance is nonnegative. -/
def BalInv (s : Store) : Prop := ∀ p ∈ s.players, 0 ≤ p.currency_amount

/-- Database well-formedness: player primary keys are distinct and
below the next fresh id. -/
def StoreWF (s : Store) : Prop :=
  (s.players.map (fun p => p.id)).Nodup ∧ ∀ p ∈ s.players, p.id < s.nextPlayerId

/-- A snapshot taken by a draw's read phase: the selected item's read
`amount` was `-1` or at least 1 (it was selected, so it was nonzero,
and the store held no value below `-1`). -/
def snapOK (snap : DrawSnapshot) : Prop :=
  snap.itemAmount = -1 ∨ 1 ≤ snap.itemAmount

/-- Every pending thread holds a good snapshot. -/
def threadOK (t : DrawThread) : Prop :=
  ∀ snap, t.phase = DrawPhase.pending snap → snapOK snap

/-- System invariant for the interleaving model. -/
def SysInv (sys : DrawSys) : Prop :=
  StockInv sys.store ∧ ∀ t ∈ sys.threads, threadOK t

/-! ## Concrete fixtures used by counterexamples and witnesses -/

/-- A guild config with the player role set, gacha enabled, and a draw
cost of 10. -/
def cfg0 : GachaConfig := ⟨some 5, true, 10⟩

/-- Draw context: guild 9, author user 7 holding the player role. -/
def ctxDrawA : CmdCtx := ⟨9, 7, true, 0, false⟩

/-- Draw context: guild 9, author user 8 holding the player role. -/
def ctxDrawB : CmdCtx := ⟨9, 8, true, 0, false⟩

/-- Give-currency context: author user 7 giving to recipient user 8,
both holding the player role, in guild 9. -/
def ctxGive : CmdCtx := ⟨9, 7, true, 8, true⟩

/-- Give-currency context: author user 7 naming themselves as the
recipient, in guild 9. -/
def ctxSelf : CmdCtx := ⟨9, 7, true, 7, true⟩

/-- A two-row player store for transfer scenarios: sender user 7 with
balance `b` (row id 1), recipient user 8 with balance `c` (row id 2). -/
def twoPlayerStore (b c : Int) : Store :=
  ⟨[⟨1, 9, 7, b⟩, ⟨2, 9, 8, c⟩], [], [], 3⟩

/-- A one-row player store: user 7 with balance `b` (row id 1). -/
def onePlayerStore (b : Int) : Store := ⟨[⟨1, 9, 7, b⟩], [], [], 2⟩

/-- Store for the stock race: users 7 and 8 each with balance 20, one
item "Sword" with finite stock 1. -/
def c2store : Store :=
  ⟨[⟨1, 9, 7, 20⟩, ⟨2, 9, 8, 20⟩], [⟨1, 9, "Sword", 1⟩], [], 3⟩

/-- Two concurrent draws against `c2store`, one per user, both not yet
started. -/
def c2sys0 : DrawSys :=
  ⟨c2store, [⟨⟨cfg0, ctxDrawA, 0⟩, DrawPhase.ready⟩,
             ⟨⟨cfg0, ctxDrawB, 0⟩, DrawPhase.ready⟩]⟩

/-- The history where both draws read before either commits. -/
def c2sysF : DrawSys := dstepCommit 1 (dstepCommit 0 (dstepRead 1 (dstepRead 0 c2sys0)))

/-- Store for the balance race: user 7 with balance 10 (exactly one
draw's cost) and an unlimited item. -/
def c4store : Store := ⟨[⟨1, 9, 7, 10⟩], [⟨1, 9, "Orb", -1⟩], [], 2⟩

/-- Two concurrent draws by user 7 against `c4store`. -/
def c4sys0 : DrawSys :=
  ⟨c4store, [⟨⟨cfg0, ctxDrawA, 0⟩, DrawPhase.ready⟩,
             ⟨⟨cfg0, ctxDrawA, 0⟩, DrawPhase.ready⟩]⟩

/-- The history where both draws read before either commits. -/
def c4sysF : DrawSys := dstepCommit 1 (dstepCommit 0 (dstepRead 1 (dstepRead 0 c4sys0)))

/-! ## Helper lemmas -/

theorem lookupPlayer_mem {s : Store} {g u : Nat} {p : GachaPlayerRow}
    (h : lookupPlayer s g u = some p) : p ∈ s.players :=
  List.mem_of_find?_eq_some h

theorem createPlayer_balInv {s : Store} {g u : Nat} (hb : BalInv s) :
    BalInv (createPlayer s g u).2 := by
  intro p hp
  rcases List.mem_append.mp hp with h | h
  · exact hb p h
  · simp only [List.mem_singleton] at h
    subst h
    rfl

theorem get_or_create_balInv {s : Store} {g u : Nat} (hb : BalInv s) :
    BalInv (get_or_create s g u).2 := by
  unfold get_or_create
  cases h : lookupPlayer s g u
  · exact createPlayer_balInv hb
  · exact hb

theorem get_or_create_items (s : Store) (g u : Nat) :
    ((get_or_create s g u).2).items = s.items := by
  unfold get_or_create createPlayer
  cases h : lookupPlayer s g u <;> rfl

theorem get_or_create_self (s : Store) (g u : Nat) (p : GachaPlayerRow)
    (h : lookupPlayer s g u = some p) : get_or_create s g u = (p, s) := by
  unfold get_or_create
  rw [h]

theorem mem_of_eligible {s : Store} {g : Nat} {it : GachaItemRow}
    (h : it ∈ eligibleItems s g) :
    it ∈ s.items ∧ it.guild_id = g ∧ it.amount ≠ 0 := by
  unfold eligibleItems at h
  rw [(List.perm_insertionSort _ _).mem_iff, List.mem_filter] at h
  obtain ⟨h1, h2⟩ := h
  simp only [Bool.and_eq_true, beq_iff_eq, bne_iff_ne, ne_eq] at h2
  exact ⟨h1, h2.1, h2.2⟩

theorem drawPhase1_items (p : DrawParams) (s : Store) :
    ((drawPhase1 p s).2).items = s.items := by
  unfold drawPhase1
  split
  · rfl
  split
  · rfl
  rcases hg : get_or_create s p.ctx.guild_id p.ctx.author_id with ⟨player, s1⟩
  have hgc : s1.items = s.items := by
    have h2 := get_or_create_items s p.ctx.guild_id p.ctx.author_id
    rw [hg] at h2
    exact h2
  dsimp only
  repeat' split
  all_goals exact hgc

theorem drawPhase1_snapOK (p : DrawParams) (s : Store) (snap : DrawSnapshot)
    (h : (drawPhase1 p s).1 = Except.ok snap) (hs : StockInv s) : snapOK snap := by
  unfold drawPhase1 at h
  split at h
  · exact absurd h (by simp)
  split at h
  · exact absurd h (by simp)
  rcases hg : get_or_create s p.ctx.guild_id p.ctx.author_id with ⟨player, s1⟩
  have hitems : s1.items = s.items := by
    have h2 := get_or_create_items s p.ctx.guild_id p.ctx.author_id
    rw [hg] at h2
    exact h2
  rw [hg] at h
  dsimp only at h
  split at h
  · exact absurd h (by simp)
  split at h
  · exact absurd h (by simp)
  split at h
  · exact absurd h (by simp)
  next item hsel =>
    have hmem : item ∈ eligibleItems s1 p.ctx.guild_id := List.getElem?_mem hsel
    obtain ⟨hin, _, hnz⟩ := mem_of_eligible hmem
    rw [hitems] at hin
    have hge := hs item hin
    simp only [Except.ok.injEq] at h
    subst h
    unfold snapOK
    dsimp only
    omega

theorem drawCommit_stockInv (p : DrawParams) (snap : DrawSnapshot) (s : Store)
    (hs : StockInv s) (hsnap : snapOK snap) : StockInv (drawCommit p snap s) := by
  unfold drawCommit StockInv
  intro it hit
  by_cases h : snap.itemAmount = -1
  · simp only [h, if_pos rfl] at hit
    exact hs it hit
  · rw [if_neg h] at hit
    simp only [List.mem_map] at hit
    obtain ⟨it0, hit0, rfl⟩ := hit
    by_cases h2 : it0.id = snap.itemId
    · rw [if_pos h2]
      rcases hsnap with h3 | h3
      · exact absurd h3 h
      · dsimp only
        omega
    · rw [if_neg h2]
      exact hs it0 hit0

theorem dstepRead_sound (sys : DrawSys) (i : Nat) (t : DrawThread)
    (hget : sys.threads[i]? = some t) (hph : t.phase = DrawPhase.ready) :
    DStep sys (dstepRead i sys) := by
  obtain ⟨s, ths⟩ := sys
  simp only [dstepRead, hget]
  exact DStep.read s ths i t hget hph

theorem dstepCommit_sound (sys : DrawSys) (i : Nat) (t : DrawThread)
    (snap : DrawSnapshot) (hget : sys.threads[i]? = some t)
    (hph : t.phase = DrawPhase.pending snap) :
    DStep sys (dstepCommit i sys) := by
  obtain ⟨s, ths⟩ := sys
  simp only [dstepCommit, hget, hph]
  exact DStep.commit s ths i t snap hget hph

theorem sysInv_step {a b : DrawSys} (h : DStep a b) (ha : SysInv a) : SysInv b := by
  obtain ⟨hstock, hth⟩ := ha
  cases h with
  | read s ths i t hget hph =>
    constructor
    · intro it hit
      rw [drawPhase1_items] at hit
      exact hstock it hit
    · intro t' ht' snap hp
      rcases List.mem_or_eq_of_mem_set ht' with h1 | rfl
      · exact hth t' h1 snap hp
      · simp only at hp
        cases hres : (drawPhase1 t.params s).1 with
        | error m =>
          rw [hres] at hp
          exact absurd hp (by simp [phaseAfterRead])
        | ok snap0 =>
          rw [hres] at hp
          simp only [phaseAfterRead, DrawPhase.pending.injEq] at hp
          subst hp
          exact drawPhase1_snapOK t.params s snap0 hres hstock
  | commit s ths i t snap0 hget hph =>
    constructor
    · exact drawCommit_stockInv t.params snap0 s hstock
        (hth t (List.getElem?_mem hget) snap0 hph)
    · intro t' ht' snap hp
      rcases List.mem_or_eq_of_mem_set ht' with h1 | rfl
      · exact hth t' h1 snap hp
      · exact absurd hp (by simp)

theorem sysInv_reach {a b : DrawSys} (h : DReach a b) (ha : SysInv a) : SysInv b := by
  unfold DReach at h
  induction h with
  | refl => exact ha
  | tail _ hstep ih => exact sysInv_step hstep ih

/-! ## Claim theorems -/

/-- **C2 (amended).** In every reachable interleaved history of draws,
every item's stored stock stays in `{-1} ∪ [0, ∞)`: the commit writes
the stock value read at selection minus one, the selection only sees
items with nonzero stock, so no finite stock is ever stored below 0. -/
theorem c2_finite_stock_never_negative (a b : DrawSys) (ha : SysInv a)
    (h : DReach a b) : ∀ it ∈ b.store.items, -1 ≤ it.amount :=
  (sysInv_reach h ha).1

/-- **C2 (witness).** The amended theorem applied to the concrete
two-draw system after one read step, at the stock-1 item. -/
theorem c2_finite_stock_never_negative_witness :
    -1 ≤ (⟨1, 9, "Sword", 1⟩ : GachaItemRow).amount :=
  c2_finite_stock_never_negative c2sys0 (dstepRead 0 c2sys0)
    ⟨by unfold StockInv; decide, by simp [c2sys0, threadOK]⟩
    (Relation.ReflTransGen.single
      (dstepRead_sound c2sys0 0 ⟨⟨cfg0, ctxDrawA, 0⟩, DrawPhase.ready⟩ rfl rfl))
    ⟨1, 9, "Sword", 1⟩ (by decide)

/-- **C2 (counterexample).** The claim's "two concurrent Draw calls
against an item with stock = 1 result in exactly one success and one
OutOfStock" is false: in the reachable history where both draws read
the stock-1 item before either commits, both succeed — two ownership
rows are created from one unit of stock. The decrement is a blind
write of the read value minus one, not a commit-time
re-check-and-decrement. -/
theorem c2_race_both_draws_succeed :
    DReach c2sys0 c2sysF ∧
    c2sysF.threads.map DrawThread.phase = [DrawPhase.succeeded, DrawPhase.succeeded] ∧
    c2sysF.store.itemToPlayer.length = 2 ∧
    c2sysF.store.items.map (fun it => it.amount) = [0] := by
  refine ⟨?_, by decide, by decide, by decide⟩
  have h1 : DStep c2sys0 (dstepRead 0 c2sys0) :=
    dstepRead_sound c2sys0 0 ⟨⟨cfg0, ctxDrawA, 0⟩, DrawPhase.ready⟩ rfl rfl
  have h2 : DStep (dstepRead 0 c2sys0) (dstepRead 1 (dstepRead 0 c2sys0)) :=
    dstepRead_sound _ 1 ⟨⟨cfg0, ctxDrawB, 0⟩, DrawPhase.ready⟩ (by decide) rfl
  have h3 : DStep (dstepRead 1 (dstepRead 0 c2sys0))
      (dstepCommit 0 (dstepRead 1 (dstepRead 0 c2sys0))) :=
    dstepCommit_sound _ 0 ⟨⟨cfg0, ctxDrawA, 0⟩, DrawPhase.pending ⟨1, 1, 1⟩⟩
      ⟨1, 1, 1⟩ (by decide) rfl
  have h4 : DStep (dstepCommit 0 (dstepRead 1 (dstepRead 0 c2sys0))) c2sysF :=
    dstepCommit_sound _ 1 ⟨⟨cfg0, ctxDrawB, 0⟩, DrawPhase.pending ⟨2, 1, 1⟩⟩
      ⟨2, 1, 1⟩ (by decide) rfl
  exact Relation.ReflTransGen.head h1 (Relation.ReflTransGen.head h2
    (Relation.ReflTransGen.head h3 (Relation.ReflTransGen.single h4)))

/-- **C4 (counterexample).** The claim's "no interleaving of
operations drives a balance negative" is false: the commit's currency
debit is an unconditional relational decrement, so in the reachable
history where user 7 (balance 10, cost 10) has two draws both pass the
balance check before either commits, the final balance is -10. -/
theorem c4_race_negative_balance :
    DReach c4sys0 c4sysF ∧
    c4sysF.store.players.map (fun p => p.currency_amount) = [-10] ∧
    ¬ BalInv c4sysF.store := by
  refine ⟨?_, by decide, ?_⟩
  · have h1 : DStep c4sys0 (dstepRead 0 c4sys0) :=
      dstepRead_sound c4sys0 0 ⟨⟨cfg0, ctxDrawA, 0⟩, DrawPhase.ready⟩ rfl rfl
    have h2 : DStep (dstepRead 0 c4sys0) (dstepRead 1 (dstepRead 0 c4sys0)) :=
      dstepRead_sound _ 1 ⟨⟨cfg0, ctxDrawA, 0⟩, DrawPhase.ready⟩ (by decide) rfl
    have h3 : DStep (dstepRead 1 (dstepRead 0 c4sys0))
        (dstepCommit 0 (dstepRead 1 (dstepRead 0 c4sys0))) :=
      dstepCommit_sound _ 0 ⟨⟨cfg0, ctxDrawA, 0⟩, DrawPhase.pending ⟨1, 1, -1⟩⟩
        ⟨1, 1, -1⟩ (by decide) rfl
    have h4 : DStep (dstepCommit 0 (dstepRead 1 (dstepRead 0 c4sys0))) c4sysF :=
      dstepCommit_sound _ 1 ⟨⟨cfg0, ctxDrawA, 0⟩, DrawPhase.pending ⟨1, 1, -1⟩⟩
        ⟨1, 1, -1⟩ (by decide) rfl
    exact Relation.ReflTransGen.head h1 (Relation.ReflTransGen.head h2
      (Relation.ReflTransGen.head h3 (Relation.ReflTransGen.single h4)))
  · unfold BalInv
    decide

/-- **C1 (code bug).** Evaluation at the failing input: in guild 9 the
sender (user 7, balance 10) gives 5 to user 8, who has no Player row
but holds the player role. The transfer succeeds, yet user 8 still has
no row afterwards: the lazily created "recipient" row is keyed to
user 7 (the handler's create passes `ctx.author.id` as `user_id`,
`gacha_cmds.py:161`), so the credit lands on a second row of the
sender and the recipient's balance never increases. -/
theorem c1_lazy_recipient_row_misdirected :
    isOk (gacha_give_currency_entry cfg0 ctxGive 5 (onePlayerStore 10)) = true ∧
    lookupPlayer (storeOf (gacha_give_currency_entry cfg0 ctxGive 5 (onePlayerStore 10))) 9 8 =
      none ∧
    (storeOf (gacha_give_currency_entry cfg0 ctxGive 5 (onePlayerStore 10))).players =
      [⟨1, 9, 7, 5⟩, ⟨2, 9, 7, 5⟩] := by
  decide

/-- **C3 (counterexample).** The claim that no intermediate state with
the recipient credited but the sender not yet debited is ever durable
is false: the transfer commits via two sequential `save()` calls
(recipient first, `gacha_cmds.py:166-167`), and `giveMidStore` — the
durable store between the two saves — at sender balance 10, recipient
balance 2, amount 5 holds recipient 7 (credited) and sender 10 (not
debited), a state equal to neither the initial nor the final store. -/
theorem c3_intermediate_state_durable :
    giveMidStore cfg0 ctxGive 5 (twoPlayerStore 10 2) =
      some ⟨[⟨1, 9, 7, 10⟩, ⟨2, 9, 8, 7⟩], [], [], 3⟩ ∧
    gacha_give_currency cfg0 ctxGive 5 (twoPlayerStore 10 2) =
      CmdResult.ok ⟨[⟨1, 9, 7, 5⟩, ⟨2, 9, 8, 7⟩], [], [], 3⟩ ∧
    giveMidStore cfg0 ctxGive 5 (twoPlayerStore 10 2) ≠ some (twoPlayerStore 10 2) := by
  decide

/-- **C3 (amended).** The transfer's commit is two sequential per-row
saves, recipient first: for any balances `b, c` and any sufficiently
covered amount `a`, the final state of a transfer between the two
distinct existing players debits the sender by exactly `a` and credits
the recipient by exactly `a`, but the durable store between the two
saves already carries the recipient's credit while the sender is still
undebited. -/
theorem c3_two_sequential_saves (b c a : Int) (h3 : a ≤ b) :
    giveMidStore cfg0 ctxGive a (twoPlayerStore b c) =
      some ⟨[⟨1, 9, 7, b⟩, ⟨2, 9, 8, c + a⟩], [], [], 3⟩ ∧
    gacha_give_currency cfg0 ctxGive a (twoPlayerStore b c) =
      CmdResult.ok ⟨[⟨1, 9, 7, b - a⟩, ⟨2, 9, 8, c + a⟩], [], [], 3⟩ := by
  have hl : lookupPlayer (twoPlayerStore b c) ctxGive.guild_id ctxGive.author_id =
      some ⟨1, 9, 7, b⟩ := rfl
  have hr : lookupPlayer (twoPlayerStore b c) ctxGive.guild_id ctxGive.recipient_id =
      some ⟨2, 9, 8, c⟩ := rfl
  have hs1 : giveStage1 cfg0 ctxGive a (twoPlayerStore b c) =
      Except.ok (⟨1, 9, 7, b⟩, ⟨2, 9, 8, c⟩, twoPlayerStore b c) := by
    unfold giveStage1 giveStage2
    rw [if_neg (by simp [cfg0]), hl]
    dsimp only
    rw [if_neg (not_lt.mpr h3), hr]
  constructor
  · unfold giveMidStore
    rw [hs1]
    rfl
  · unfold gacha_give_currency
    rw [hs1]
    rfl

/-- **C3 (witness).** The amended theorem applied at balances 10 and
2, amount 5. -/
theorem c3_two_sequential_saves_witness :
    giveMidStore cfg0 ctxGive 5 (twoPlayerStore 10 2) =
      some ⟨[⟨1, 9, 7, 10⟩, ⟨2, 9, 8, 2 + 5⟩], [], [], 3⟩ ∧
    gacha_give_currency cfg0 ctxGive 5 (twoPlayerStore 10 2) =
      CmdResult.ok ⟨[⟨1, 9, 7, 10 - 5⟩, ⟨2, 9, 8, 2 + 5⟩], [], [], 3⟩ :=
  c3_two_sequential_saves 10 2 5 (by decide)

/-- **C5 (counterexample).** The claim that every call with
`fromUserId == toUserId` fails with no balance change is false: the
handler never compares the recipient to the author, so user 7 (balance
10) giving 3 to user 7 succeeds — and, because the credit and the
debit are written through two separate stale in-memory copies of the
same row, the later sender save overwrites the credit and the balance
ends at 7. -/
theorem c5_self_transfer_succeeds :
    isOk (gacha_give_currency_entry cfg0 ctxSelf 3 (onePlayerStore 10)) = true ∧
    (lookupPlayer (storeOf (gacha_give_currency_entry cfg0 ctxSelf 3 (onePlayerStore 10))) 9 7).map
        (fun p => p.currency_amount) = some 7 := by
  decide

/-- **C5 (amended).** The interface re-validates `1 ≤ amount ≤ 999`,
but the handler does not re-validate `fromUserId != toUserId`: for any
balance `b` and in-range amount `a ≤ b`, a self-transfer succeeds and
leaves the caller's balance at `b - a` — the recipient-save's credit
is overwritten by the sender save of the second stale copy of the same
row, destroying `a` units of currency. -/
theorem c5_no_self_transfer_check (b a : Int) (h1 : 1 ≤ a) (h2 : a ≤ 999)
    (h3 : a ≤ b) :
    gacha_give_currency_entry cfg0 ctxSelf a (onePlayerStore b) =
      CmdResult.ok (onePlayerStore (b - a)) := by
  have hl : lookupPlayer (onePlayerStore b) ctxSelf.guild_id ctxSelf.author_id =
      some ⟨1, 9, 7, b⟩ := rfl
  have hs1 : giveStage1 cfg0 ctxSelf a (onePlayerStore b) =
      Except.ok (⟨1, 9, 7, b⟩, ⟨1, 9, 7, b⟩, onePlayerStore b) := by
    unfold giveStage1 giveStage2
    rw [if_neg (by simp [cfg0]), hl]
    dsimp only
    rw [if_neg (not_lt.mpr h3)]
    rfl
  unfold gacha_give_currency_entry
  rw [if_neg (by omega)]
  unfold gacha_give_currency
  rw [hs1]
  rfl

/-- **C5 (witness).** The amended theorem applied at balance 10,
amount 3. -/
theorem c5_no_self_transfer_check_witness :
    gacha_give_currency_entry cfg0 ctxSelf 3 (onePlayerStore 10) =
      CmdResult.ok (onePlayerStore (10 - 3)) :=
  c5_no_self_transfer_check 10 3 (by decide) (by decide) (by decide)

/-- **C6 (counterexample).** The claim that GetProfile leaves the
store unchanged for every input is false: `/gacha profile` called by a
role-holding user with no Player row durably creates one
(`gacha_cmds.py:111-113`). -/
theorem c6_profile_mutates :
    storeOf (gacha_profile cfg0 ctxDrawA ⟨[], [], [], 1⟩) ≠ ⟨[], [], [], 1⟩ := by
  decide

/-- **C6 (amended).** `/gacha view-item` is read-only for every input;
`/gacha profile` is read-only except in exactly one case: the caller
has no Player row and holds the player role, in which case the only
change is the lazy creation of the caller's fresh zero-balance row —
items, ownership rows and existing players are never touched. -/
theorem c6_reads_mutate_only_lazily :
    (∀ (ctx : CmdCtx) (name : String) (s : Store),
      storeOf (gacha_user_view_item ctx name s) = s) ∧
    (∀ (cfg : GachaConfig) (ctx : CmdCtx) (s : Store),
      storeOf (gacha_profile cfg ctx s) = s ∨
        (lookupPlayer s ctx.guild_id ctx.author_id = none ∧
         ctx.author_has_role = true ∧
         storeOf (gacha_profile cfg ctx s) =
           (createPlayer s ctx.guild_id ctx.author_id).2)) := by
  constructor
  · intro ctx name s
    unfold gacha_user_view_item
    split <;> rfl
  · intro cfg ctx s
    unfold gacha_profile
    by_cases hc : cfg.player_role = none ∨ cfg.enabled = false
    · rw [if_pos hc]
      left
      rfl
    rw [if_neg hc]
    cases h : lookupPlayer s ctx.guild_id ctx.author_id with
    | some p => exact Or.inl rfl
    | none =>
      by_cases hr : ctx.author_has_role = false
      · rw [if_pos hr]
        left
        rfl
      · rw [if_neg hr]
        exact Or.inr ⟨rfl, by simpa using hr, rfl⟩

/-- **C7 (confirmed).** A draw by a role-holding caller whose existing
row's balance is below `currency_cost` fails with the
insufficient-currency message and returns the store exactly as it was:
the check precedes the eligible-set queries and the commit batch. -/
theorem c7_insufficient_funds_unchanged (p : DrawParams) (s : Store)
    (q : GachaPlayerRow)
    (hcfg : ¬(p.cfg.player_role = none ∨ p.cfg.enabled = false))
    (hrole : p.ctx.author_has_role = true)
    (hlp : lookupPlayer s p.ctx.guild_id p.ctx.author_id = some q)
    (hq : q.currency_amount < p.cfg.currency_cost) :
    gacha_draw p s =
      CmdResult.err "You do not have enough currency to draw from the gacha." s := by
  unfold gacha_draw drawPhase1
  rw [if_neg hcfg, if_neg (by simp [hrole]), get_or_create_self s _ _ q hlp]
  dsimp only
  rw [if_pos hq]

/-- **C7 (witness).** The theorem applied to user 7 with balance 5 and
cost 10. -/
theorem c7_insufficient_funds_unchanged_witness :
    gacha_draw ⟨cfg0, ctxDrawA, 0⟩ (onePlayerStore 5) =
      CmdResult.err "You do not have enough currency to draw from the gacha."
        (onePlayerStore 5) :=
  c7_insufficient_funds_unchanged ⟨cfg0, ctxDrawA, 0⟩ (onePlayerStore 5)
    ⟨1, 9, 7, 5⟩ (by decide) rfl rfl (by decide)

/-- **C9 (confirmed).** The public transfer interface declares
`amount` with `min_value=1, max_value=999`: every call with
`amount > 999` is rejected at the option layer with the store
untouched, before any of the handler's engine logic runs — an upper
bound the spec's `amount ≥ 1` does not state. -/
theorem c9_amount_capped_at_999 (cfg : GachaConfig) (ctx : CmdCtx) (amount : Int)
    (s : Store) (h : 999 < amount) :
    gacha_give_currency_entry cfg ctx amount s =
      CmdResult.err "Option amount out of range [1, 999]." s := by
  unfold gacha_give_currency_entry
  rw [if_pos (Or.inr h)]

/-- **C9 (witness).** The theorem applied at amount 1000. -/
theorem c9_amount_capped_at_999_witness :
    gacha_give_currency_entry cfg0 ctxGive 1000 (onePlayerStore 10) =
      CmdResult.err "Option amount out of range [1, 999]." (onePlayerStore 10) :=
  c9_amount_capped_at_999 cfg0 ctxGive 1000 (onePlayerStore 10) (by decide)

/-- **C10 (confirmed).** `/gacha profile` for a caller with no Player
row fails with "You have no data for gacha." when the caller lacks the
configured player role (store unchanged), and only a role-holding
caller triggers the lazy creation of a fresh record, whose balance is
zero. -/
theorem c10_profile_gates_lazy_creation (cfg : GachaConfig) (ctx : CmdCtx)
    (s : Store)
    (hcfg : ¬(cfg.player_role = none ∨ cfg.enabled = false))
    (hlp : lookupPlayer s ctx.guild_id ctx.author_id = none) :
    (ctx.author_has_role = false →
      gacha_profile cfg ctx s = CmdResult.err "You have no data for gacha." s) ∧
    (ctx.author_has_role = true →
      gacha_profile cfg ctx s =
        CmdResult.ok (createPlayer s ctx.guild_id ctx.author_id).2 ∧
      (createPlayer s ctx.guild_id ctx.author_id).1.currency_amount = 0) := by
  unfold gacha_profile
  rw [if_neg hcfg, hlp]
  constructor
  · intro h
    rw [if_pos h]
  · intro h
    rw [if_neg (by simp [h])]
    exact ⟨rfl, rfl⟩

/-- **C10 (witness).** The theorem applied to the empty store and a
role-holding caller. -/
theorem c10_profile_gates_lazy_creation_witness :
    (ctxDrawA.author_has_role = false →
      gacha_profile cfg0 ctxDrawA ⟨[], [], [], 1⟩ =
        CmdResult.err "You have no data for gacha." ⟨[], [], [], 1⟩) ∧
    (ctxDrawA.author_has_role = true →
      gacha_profile cfg0 ctxDrawA ⟨[], [], [], 1⟩ =
        CmdResult.ok (createPlayer ⟨[], [], [], 1⟩ ctxDrawA.guild_id ctxDrawA.author_id).2 ∧
      (createPlayer ⟨[], [], [], 1⟩ ctxDrawA.guild_id ctxDrawA.author_id).1.currency_amount = 0) :=
  c10_profile_gates_lazy_creation cfg0 ctxDrawA ⟨[], [], [], 1⟩ (by decide) rfl

/-! ## Balance preservation under sequential operations -/

theorem get_or_create_mem (s : Store) (g u : Nat) :
    (get_or_create s g u).1 ∈ (get_or_create s g u).2.players := by
  unfold get_or_create
  cases h : lookupPlayer s g u with
  | none =>
    unfold createPlayer
    exact List.mem_append_right _ (List.mem_singleton.mpr rfl)
  | some p => exact lookupPlayer_mem h

theorem get_or_create_wf (s : Store) (g u : Nat) (hwf : StoreWF s) :
    StoreWF (get_or_create s g u).2 := by
  obtain ⟨hnd, hlt⟩ := hwf
  unfold get_or_create
  cases h : lookupPlayer s g u with
  | some p => exact ⟨hnd, hlt⟩
  | none =>
    unfold createPlayer
    constructor
    · simp only [List.map_append, List.map_cons, List.map_nil]
      rw [List.nodup_append]
      refine ⟨hnd, List.nodup_singleton _, ?_⟩
      intro x hx hy
      simp only [List.mem_singleton] at hy
      subst hy
      obtain ⟨q, hq, hqid⟩ := List.mem_map.mp hx
      exact absurd hqid (Nat.ne_of_lt (hlt q hq))
    · intro q hq
      rcases List.mem_append.mp hq with h1 | h1
      · exact Nat.lt_succ_of_lt (hlt q h1)
      · simp only [List.mem_singleton] at h1
        subst h1
        exact Nat.lt_succ_self _

theorem drawPhase1_balInv (p : DrawParams) (s : Store) (hb : BalInv s) :
    BalInv (drawPhase1 p s).2 := by
  unfold drawPhase1
  split
  · exact hb
  split
  · exact hb
  rcases hg : get_or_create s p.ctx.guild_id p.ctx.author_id with ⟨player, s1⟩
  have hb1 : BalInv s1 := by
    have h2 := get_or_create_balInv (s := s) (g := p.ctx.guild_id)
      (u := p.ctx.author_id) hb
    rw [hg] at h2
    exact h2
  dsimp only
  repeat' split
  all_goals exact hb1

theorem drawPhase1_ok_spec (p : DrawParams) (s : Store) (snap : DrawSnapshot)
    (s1 : Store) (h : drawPhase1 p s = (Except.ok snap, s1)) :
    ∃ player, get_or_create s p.ctx.guild_id p.ctx.author_id = (player, s1) ∧
      snap.playerId = player.id ∧
      p.cfg.currency_cost ≤ player.currency_amount := by
  unfold drawPhase1 at h
  split at h
  · exact absurd h (by simp)
  split at h
  · exact absurd h (by simp)
  dsimp only at h
  split at h
  · exact absurd h (by simp)
  next hbal =>
    split at h
    · exact absurd h (by simp)
    split at h
    · exact absurd h (by simp)
    next item _ =>
      simp only [Prod.mk.injEq, Except.ok.injEq] at h
      obtain ⟨h1, h2⟩ := h
      refine ⟨(get_or_create s p.ctx.guild_id p.ctx.author_id).1, ?_, ?_,
        not_lt.mp hbal⟩
      · rw [← h2]
      · rw [← h1]

theorem drawCommit_balInv (p : DrawParams) (snap : DrawSnapshot) (s : Store)
    (hb : BalInv s)
    (hex : ∀ q ∈ s.players, q.id = snap.playerId →
      p.cfg.currency_cost ≤ q.currency_amount) :
    BalInv (drawCommit p snap s) := by
  unfold drawCommit
  intro q hq
  by_cases h : snap.itemAmount = -1 <;>
    simp only [h, if_pos rfl, if_neg, not_false_iff, List.mem_map] at hq
  case pos =>
    obtain ⟨x, hx, rfl⟩ := hq
    by_cases h2 : x.id = snap.playerId
    · rw [if_pos h2]
      have := hex x hx h2
      dsimp only
      omega
    · rw [if_neg h2]
      exact hb x hx
  case neg =>
    obtain ⟨x, hx, rfl⟩ := hq
    by_cases h2 : x.id = snap.playerId
    · rw [if_pos h2]
      have := hex x hx h2
      dsimp only
      omega
    · rw [if_neg h2]
      exact hb x hx

theorem draw_balInv (p : DrawParams) (s : Store) (hwf : StoreWF s)
    (hb : BalInv s) : BalInv (storeOf (gacha_draw p s)) := by
  unfold gacha_draw
  rcases hd : drawPhase1 p s with ⟨r, s1⟩
  cases r with
  | error m =>
    have := drawPhase1_balInv p s hb
    rw [hd] at this
    exact this
  | ok snap =>
    obtain ⟨player, hg, hpid, hcost⟩ := drawPhase1_ok_spec p s snap s1 hd
    have hb1 : BalInv s1 := by
      have h2 := get_or_create_balInv (s := s) (g := p.ctx.guild_id)
        (u := p.ctx.author_id) hb
      rw [hg] at h2
      exact h2
    have hwf1 : StoreWF s1 := by
      have h2 := get_or_create_wf s p.ctx.guild_id p.ctx.author_id hwf
      rw [hg] at h2
      exact h2
    have hmem : player ∈ s1.players := by
      have h2 := get_or_create_mem s p.ctx.guild_id p.ctx.author_id
      rw [hg] at h2
      exact h2
    refine drawCommit_balInv p snap s1 hb1 ?_
    intro q hq hid
    have heq : q = player :=
      List.inj_on_of_nodup_map hwf1.1 hq hmem (by rw [hid, hpid])
    rw [heq]
    exact hcost

theorem savePlayer_mem_cases {s : Store} {p q : GachaPlayerRow}
    (hq : q ∈ (savePlayer s p).players) : q = p ∨ q ∈ s.players := by
  unfold savePlayer at hq
  dsimp only at hq
  obtain ⟨x, hx, rfl⟩ := List.mem_map.mp hq
  by_cases h : x.id = p.id
  · rw [if_pos h]
    exact Or.inl rfl
  · rw [if_neg h]
    exact Or.inr hx

theorem giveStage2_balInv_error {ctx : CmdCtx} {amount : Int}
    {player : GachaPlayerRow} {s1 : Store} {m : String} {s2 : Store}
    (hb : BalInv s1)
    (h : giveStage2 ctx amount player s1 = Except.error (m, s2)) : BalInv s2 := by
  unfold giveStage2 at h
  split at h
  · simp only [Except.error.injEq, Prod.mk.injEq] at h
    rw [← h.2]
    exact hb
  split at h
  · split at h
    · simp only [Except.error.injEq, Prod.mk.injEq] at h
      rw [← h.2]
      exact hb
    · exact absurd h (by simp)
  · exact absurd h (by simp)

theorem giveStage2_balInv_ok {ctx : CmdCtx} {amount : Int}
    {player : GachaPlayerRow} {s1 : Store} {p r : GachaPlayerRow} {s2 : Store}
    (hb : BalInv s1)
    (h : giveStage2 ctx amount player s1 = Except.ok (p, r, s2)) :
    BalInv s2 ∧ p = player ∧ amount ≤ p.currency_amount ∧
      0 ≤ r.currency_amount := by
  unfold giveStage2 at h
  split at h
  · exact absurd h (by simp)
  next hbal =>
    split at h
    · split at h
      · exact absurd h (by simp)
      · simp only [Except.ok.injEq, Prod.mk.injEq] at h
        obtain ⟨h1, h2, h3⟩ := h
        subst h1
        rw [← h3, ← h2]
        exact ⟨createPlayer_balInv hb, rfl, not_lt.mp hbal, le_refl 0⟩
    · next recipient hrec =>
      simp only [Except.ok.injEq, Prod.mk.injEq] at h
      obtain ⟨h1, h2, h3⟩ := h
      subst h1
      rw [← h3, ← h2]
      exact ⟨hb, rfl, not_lt.mp hbal, hb recipient (lookupPlayer_mem hrec)⟩

theorem giveStage1_balInv_error {cfg : GachaConfig} {ctx : CmdCtx} {amount : Int}
    {s : Store} {m : String} {s1 : Store} (hb : BalInv s)
    (h : giveStage1 cfg ctx amount s = Except.error (m, s1)) : BalInv s1 := by
  unfold giveStage1 at h
  split at h
  · simp only [Except.error.injEq, Prod.mk.injEq] at h
    rw [← h.2]
    exact hb
  split at h
  · split at h
    · simp only [Except.error.injEq, Prod.mk.injEq] at h
      rw [← h.2]
      exact hb
    · split at h
      next player s2 hcp =>
        refine giveStage2_balInv_error ?_ h
        have : BalInv (createPlayer s ctx.guild_id ctx.author_id).2 :=
          createPlayer_balInv hb
        rw [hcp] at this
        exact this
  · next player hlp => exact giveStage2_balInv_error hb h

theorem giveStage1_balInv_ok {cfg : GachaConfig} {ctx : CmdCtx} {amount : Int}
    {s : Store} {p r : GachaPlayerRow} {s2 : Store} (hb : BalInv s)
    (h : giveStage1 cfg ctx amount s = Except.ok (p, r, s2)) :
    BalInv s2 ∧ amount ≤ p.currency_amount ∧ 0 ≤ r.currency_amount := by
  unfold giveStage1 at h
  split at h
  · exact absurd h (by simp)
  split at h
  · split at h
    · exact absurd h (by simp)
    · split at h
      next player s3 hcp =>
        have hb3 : BalInv s3 := by
          have : BalInv (createPlayer s ctx.guild_id ctx.author_id).2 :=
            createPlayer_balInv hb
          rw [hcp] at this
          exact this
        obtain ⟨h1, _, h3, h4⟩ := giveStage2_balInv_ok hb3 h
        exact ⟨h1, h3, h4⟩
  · next player hlp =>
    obtain ⟨h1, _, h3, h4⟩ := giveStage2_balInv_ok hb h
    exact ⟨h1, h3, h4⟩

theorem give_balInv (cfg : GachaConfig) (ctx : CmdCtx) (amount : Int) (s : Store)
    (ha : 0 ≤ amount) (hb : BalInv s) :
    BalInv (storeOf (gacha_give_currency cfg ctx amount s)) := by
  unfold gacha_give_currency
  cases h : giveStage1 cfg ctx amount s with
  | error ms =>
    rcases ms with ⟨m, s1⟩
    exact giveStage1_balInv_error hb h
  | ok prs =>
    rcases prs with ⟨p, r, s2⟩
    obtain ⟨hb2, hp, hr⟩ := giveStage1_balInv_ok hb h
    dsimp only [storeOf]
    intro q hq
    rcases savePlayer_mem_cases hq with rfl | hq2
    · dsimp only
      omega
    · rcases savePlayer_mem_cases hq2 with rfl | hq3
      · dsimp only
        omega
      · exact hb2 q hq3

/-- **C4 (amended).** Sequentially — each operation running alone to
completion — draws and transfers keep every stored balance
nonnegative: the draw's balance check precedes its debit and the
transfer's check precedes its saves. (The debit is not re-checked at
commit time, so this fails under interleaving: see the
counterexample.) -/
theorem c4_sequential_balances_nonnegative :
    (∀ (p : DrawParams) (s : Store), StoreWF s → BalInv s →
      BalInv (storeOf (gacha_draw p s))) ∧
    (∀ (cfg : GachaConfig) (ctx : CmdCtx) (amount : Int) (s : Store),
      0 ≤ amount → BalInv s →
      BalInv (storeOf (gacha_give_currency cfg ctx amount s))) :=
  ⟨fun p s hwf hb => draw_balInv p s hwf hb,
   fun cfg ctx amount s ha hb => give_balInv cfg ctx amount s ha hb⟩

/-- **C4 (witness).** The amended theorem applied to a concrete draw
(user 7, balance 20, cost 10) and a concrete transfer (10 gives 5). -/
theorem c4_sequential_balances_nonnegative_witness :
    BalInv (storeOf (gacha_draw ⟨cfg0, ctxDrawA, 0⟩ (onePlayerStore 20))) ∧
    BalInv (storeOf (gacha_give_currency cfg0 ctxGive 5 (twoPlayerStore 10 2))) :=
  ⟨c4_sequential_balances_nonnegative.1 ⟨cfg0, ctxDrawA, 0⟩ (onePlayerStore 20)
      ⟨by decide, by decide⟩ (by unfold BalInv; decide),
   c4_sequential_balances_nonnegative.2 cfg0 ctxGive 5 (twoPlayerStore 10 2)
      (by decide) (by unfold BalInv; decide)⟩

/-! ## Uniform selection -/

theorem eligible_nodup {s : Store} {g : Nat}
    (hnd : (s.items.map (fun it => it.id)).Nodup) :
    (eligibleItems s g).Nodup := by
  have h1 : s.items.Nodup := List.Nodup.of_map _ hnd
  exact ((List.perm_insertionSort _ _).nodup_iff).mpr (h1.filter _)

/-- **C8 (confirmed).** Selection is uniform over exactly the guild's
items with nonzero stock: the eligible list ranges over exactly the
guild's items with `amount ≠ 0`; for `n` eligible items each one is
returned by exactly one of the `n` equally likely values of the random
skip index (so each has probability `1/n`, independent of its stock
quantity); and when the eligible set is empty a draw that reaches
selection fails with "No items to draw.", the store unchanged. -/
theorem c8_uniform_over_nonzero_stock (s : Store) (g : Nat)
    (hnd : (s.items.map (fun it => it.id)).Nodup) :
    (∀ a : GachaItemRow,
      a ∈ eligibleItems s g ↔ a ∈ s.items ∧ a.guild_id = g ∧ a.amount ≠ 0) ∧
    (∀ a ∈ eligibleItems s g,
      ∃! j : Fin (eligibleItems s g).length, (eligibleItems s g).get j = a) ∧
    (∀ (p : DrawParams) (q : GachaPlayerRow), p.ctx.guild_id = g →
      ¬(p.cfg.player_role = none ∨ p.cfg.enabled = false) →
      p.ctx.author_has_role = true →
      lookupPlayer s g p.ctx.author_id = some q →
      ¬ q.currency_amount < p.cfg.currency_cost →
      (eligibleItems s g).length = 0 →
      gacha_draw p s = CmdResult.err "No items to draw." s) := by
  refine ⟨?_, ?_, ?_⟩
  · intro a
    constructor
    · intro h
      obtain ⟨h1, h2, h3⟩ := mem_of_eligible h
      exact ⟨h1, h2, h3⟩
    · intro ⟨h1, h2, h3⟩
      unfold eligibleItems
      rw [(List.perm_insertionSort _ _).mem_iff, List.mem_filter]
      exact ⟨h1, by simp [h2, h3]⟩
  · intro a ha
    obtain ⟨j, hj⟩ := List.mem_iff_get.mp ha
    refine ⟨j, hj, ?_⟩
    intro j2 hj2
    exact List.nodup_iff_injective_get.mp (eligible_nodup hnd) (hj2.trans hj.symm)
  · intro p q hguild hcfg hrole hlp hq hlen
    subst hguild
    unfold gacha_draw drawPhase1
    rw [if_neg hcfg, if_neg (by simp [hrole]), get_or_create_self s _ _ q hlp]
    dsimp only
    rw [if_neg hq, if_pos hlen]

/-- **C8 (witness).** The theorem applied to the store with a single
stock-1 item in guild 9. -/
theorem c8_uniform_over_nonzero_stock_witness :
    (∀ a : GachaItemRow,
      a ∈ eligibleItems c2store 9 ↔
        a ∈ c2store.items ∧ a.guild_id = 9 ∧ a.amount ≠ 0) ∧
    (∀ a ∈ eligibleItems c2store 9,
      ∃! j : Fin (eligibleItems c2store 9).length,
        (eligibleItems c2store 9).get j = a) ∧
    (∀ (p : DrawParams) (q : GachaPlayerRow), p.ctx.guild_id = 9 →
      ¬(p.cfg.player_role = none ∨ p.cfg.enabled = false) →
      p.ctx.author_has_role = true →
      lookupPlayer c2store 9 p.ctx.author_id = some q →
      ¬ q.currency_amount < p.cfg.currency_cost →
      (eligibleItems c2store 9).length = 0 →
      gacha_draw p c2store = CmdResult.err "No items to draw." c2store) :=
  c8_uniform_over_nonzero_stock c2store 9 (by decide)

end Gacha
